import Mathlib

/-!
Shallow embedding of the Space-Time A* planner (`stastar/planner.py`) and of the
minimal contracts of its collaborators (`grid.py`, `neighbour_table.py`,
`state.py` are not present in the source tree; the spec sections §3, §4.1, §4.2
describe them and they are modelled from those words where marked).

Conventions: a grid cell is a pair of integers; Python ints are `Int`/`Nat`;
a raised Python exception is an explicit error value threaded through the
functions that can raise; the dictionaries mutated by `plan` are threaded as
explicit state.
-/

namespace STAStar

/-- a grid cell: a pair of integers, compared by exact integer equality (§3). -/
abbrev Cell := Int × Int

/-- squared Euclidean distance between two cells (exact integer arithmetic). -/
def distSq (a b : Cell) : Nat :=
  (a.1 - b.1).natAbs ^ 2 + (a.2 - b.2).natAbs ^ 2

/-- fuel-based integer square root: largest `j ≤ k` with `j*j ≤ n` (0 when none). -/
def isqrtAux (n : Nat) : Nat → Nat
  | 0 => 0
  | k + 1 => if (k + 1) * (k + 1) ≤ n then k + 1 else isqrtAux n k

/-- floor of the real square root of `n`. `int(np.linalg.norm(...))` truncates the
floating-point Euclidean norm toward zero, which on exactly-representable integer
inputs is this floor. -/
def isqrt (n : Nat) : Nat := isqrtAux n n

/-- `Planner.h` (planner.py lines 39-41): `int(np.linalg.norm(start-goal, 1))`,
the L1 norm, exact on integer cells. -/
def Planner.h (start goal : Cell) : Nat :=
  (start.1 - goal.1).natAbs + (start.2 - goal.2).natAbs

/-- `Planner.l2` (planner.py lines 43-45): `int(np.linalg.norm(start-goal, 2))`,
the Euclidean distance truncated to an integer, i.e. the floor of the square root
of the squared distance. -/
def Planner.l2 (start goal : Cell) : Nat := isqrt (distSq start goal)

/-- a Python exception escaping `plan`. -/
inductive PyErr
  /-- AttributeError: access to an attribute an object does not have. -/
  | attributeError
deriving DecidableEq, Repr

/-- the Planner object after `__init__` (planner.py lines 21-33): it keeps the
robot radius and the static obstacle list (the KDTree's data points), and owns
the two collaborators, kept here as the functions the core consumes.

`snap_to_grid` — Modelled from the spec: `grid.py` is absent from the source
tree; §4.1 specifies only a deterministic map from a coordinate pair to a cell
of the grid, so it is carried as an arbitrary function field.

`neighbour_table` — Modelled from the spec: `neighbour_table.py` is absent from
the source tree; §4.2 specifies only a fixed per-cell adjacency lookup
(`NeighbourTable.lookup`), so it is carried as an arbitrary function field. -/
structure Planner where
  robot_radius : Nat
  static_obstacles : List Cell
  snap_to_grid : Cell → Cell
  neighbour_table : Cell → List Cell

/-- index answered by `KDTree.query(grid_pos)` (planner.py line 51): an index of
a nearest point by Euclidean distance (scipy breaks ties internally; the first
index attaining the minimum is taken here; the value is unused downstream). -/
def kd_query (pts : List Cell) (p : Cell) : Nat :=
  (List.range pts.length).foldl
    (fun best i =>
      if distSq p (pts.getD i (0, 0)) < distSq p (pts.getD best (0, 0)) then i else best)
    0

/-- `Planner.safe_static` (planner.py lines 50-52). Line 51 queries the KDTree
for the nearest neighbour index. Line 52 then evaluates
`self.static_obstacles.datt[nn]`: a scipy KDTree stores its points in the
attribute `data` and has no attribute `datt`, so this attribute access raises
AttributeError before any distance comparison is performed. -/
def Planner.safe_static (self : Planner) (grid_pos : Cell) : Except PyErr Bool :=
  let _nn := kd_query self.static_obstacles grid_pos
  Except.error PyErr.attributeError

/-- the dynamic obstacle dictionary: discrete time to the list of cells occupied
at that time (the np.array conversion on line 64 keeps the same coordinates). -/
abbrev DynTable := List (Nat × List Cell)

/-- Python dict lookup by key (callers construct the dict, so keys are unique). -/
def lookupTable (t : DynTable) (k : Nat) : Option (List Cell) :=
  (t.find? (fun e => e.1 == k)).map (fun e => e.2)

/-- `dict.setdefault(time, [])` (planner.py line 69): returns the entry at the
key, inserting an empty list there first when the key is absent. -/
def setdefault (t : DynTable) (k : Nat) : List Cell × DynTable :=
  match t.find? (fun e => e.1 == k) with
  | some e => (e.2, t)
  | none => ([], t ++ [(k, [])])

/-- the closure `safe_dynamic` (planner.py lines 66-69): the cell is accepted iff
every obstacle recorded at `time` is strictly farther than `2 * robot_radius`,
with distances integer-truncated by `l2`; the mutation `setdefault` performs on
the captured dict is returned alongside the answer. -/
def safe_dynamic (r : Nat) (t : DynTable) (grid_pos : Cell) (time : Nat) :
    Bool × DynTable :=
  let p := setdefault t time
  (p.1.all (fun o => decide (2 * r < Planner.l2 grid_pos o)), p.2)

/-- the dynamic-safety condition read directly against the table the caller
supplied (the form quantified over in the path-safety claim): every obstacle
listed at the given time is strictly farther than twice the robot radius, a time
absent from the table meaning no obstacles. -/
def dynSafePure (r : Nat) (t : DynTable) (c : Cell) (time : Nat) : Bool :=
  ((lookupTable t time).getD []).all (fun o => decide (2 * r < Planner.l2 c o))

/-- Modelled from the spec (§3): `state.py` is absent from the source tree.
A search state carries (position, time, g_score, h_score); the heap orders
states by `f = g_score + h_score`; set and dict membership compare states by
(position, time) only. -/
structure State where
  pos : Cell
  time : Nat
  g_score : Nat
  h_score : Nat
deriving DecidableEq, Repr

/-- ordering key used by the heap: `f = g + h` (§3). -/
def State.f (s : State) : Nat := s.g_score + s.h_score

instance : Inhabited State := ⟨⟨(0, 0), 0, 0, 0⟩⟩

/-- CPython `heapq._siftdown(heap, 0, pos)` with `newitem = heap[pos]`: bubble
`newitem` toward the root while it is smaller than its parent (both call sites
in heapq used by `plan` pass `startpos = 0`). The fuel equals the starting
position, which bounds the number of parent steps, so the fuel never runs out. -/
def siftdown (fuel : Nat) (heap : List State) (pos : Nat) (newitem : State) :
    List State :=
  match fuel with
  | 0 => heap.set pos newitem
  | fuel + 1 =>
    if pos = 0 then heap.set pos newitem
    else
      let parentpos := (pos - 1) / 2
      let parent := heap.getD parentpos default
      if newitem.f < parent.f then
        siftdown fuel (heap.set pos parent) parentpos newitem
      else heap.set pos newitem

/-- CPython `heapq.heappush`: append, then sift the new item down to its place. -/
def heappush (heap : List State) (item : State) : List State :=
  siftdown heap.length (heap ++ [item]) heap.length item

/-- the loop of CPython `heapq._siftup`: move the smaller child up into `pos`
until `pos` has no child, returning the final hole position. The fuel equals the
heap length, which bounds the number of child steps. -/
def siftupLoop (fuel : Nat) (heap : List State) (pos : Nat) : List State × Nat :=
  match fuel with
  | 0 => (heap, pos)
  | fuel + 1 =>
    let endpos := heap.length
    let childpos := 2 * pos + 1
    if childpos < endpos then
      let rightpos := childpos + 1
      let cp :=
        if rightpos < endpos &&
            !(decide ((heap.getD childpos default).f < (heap.getD rightpos default).f)) then
          rightpos
        else childpos
      siftupLoop fuel (heap.set pos (heap.getD cp default)) cp
    else (heap, pos)

/-- CPython `heapq._siftup(heap, 0)`: save `heap[pos]`, walk the hole to a leaf,
place the saved item there and sift it down (with `startpos = 0`). -/
def siftup (heap : List State) (pos : Nat) : List State :=
  let newitem := heap.getD pos default
  let p := siftupLoop heap.length heap pos
  siftdown p.1.length (p.1.set p.2 newitem) p.2 newitem

/-- the heap left behind by CPython `heapq.heappop`: remove the last element; if
elements remain, overwrite the root with it and sift up. The popped return value
is always the old `heap[0]`, which `plan` already holds as `current_state`. -/
def heappop_rest (heap : List State) : List State :=
  let rest := heap.dropLast
  if rest.isEmpty then []
  else siftup (rest.set 0 (heap.getLastD default)) 0

/-- the mutable state of one `plan` call: the open-set heap, the closed set (a
Python set of states, membership by (position, time)), the parent dict (keyed by
(position, time)), the dict object the caller passed in, the fresh dict built
from it on line 64 (the one `setdefault` mutates), and the bookkeeping list of
every state handed to the open set (line 77 and line 107). -/
structure LoopSt where
  open_set : List State
  closed_set : List (Cell × Nat)
  came_from : List ((Cell × Nat) × State)
  caller_dyn : DynTable
  dyn : DynTable
  pushed : List State

/-- Python dict assignment `came_from[key] = value`: overwrite when present,
append when absent. -/
def dictInsert (m : List ((Cell × Nat) × State)) (k : Cell × Nat) (v : State) :
    List ((Cell × Nat) × State) :=
  if m.any (fun e => decide (e.1 = k)) then
    m.map (fun e => if e.1 = k then (k, v) else e)
  else m ++ [(k, v)]

/-- Python dict lookup in the parent map. -/
def lookupCF (m : List ((Cell × Nat) × State)) (k : Cell × Nat) : Option State :=
  (m.find? (fun e => decide (e.1 = k))).map (fun e => e.2)

/-- the body of the neighbour loop (planner.py lines 94-107) for one neighbour:
build the candidate state (line 95), skip it when its (position, time) is closed
(lines 97-98), evaluate `not safe_static(...) or not safe_dynamic(...)` left to
right (line 101; `safe_static` raises, which aborts the whole call), skip when a
state with the same (position, time) is already in the open set (lines 104-105),
otherwise record the parent and push (lines 106-107). -/
def step_neighbour (P : Planner) (goal : Cell) (cur : State) (epoch : Nat)
    (st : LoopSt) (neighbour : Cell) : LoopSt × Option PyErr :=
  let neighbour_state : State :=
    ⟨neighbour, epoch, cur.g_score + 1, Planner.h neighbour goal⟩
  if (neighbour, epoch) ∈ st.closed_set then (st, none)
  else
    match P.safe_static neighbour with
    | Except.error e => (st, some e)
    | Except.ok safeS =>
      if !safeS then (st, none)
      else
        let pr := safe_dynamic P.robot_radius st.dyn neighbour epoch
        let st := { st with dyn := pr.2 }
        if !pr.1 then (st, none)
        else if st.open_set.any
            (fun s => decide (s.pos = neighbour) && decide (s.time = epoch)) then
          (st, none)
        else
          ({ st with
              came_from := dictInsert st.came_from (neighbour, epoch) cur,
              open_set := heappush st.open_set neighbour_state,
              pushed := st.pushed ++ [neighbour_state] }, none)

/-- the neighbour loop (planner.py line 94): fold `step_neighbour` over the
neighbour list, an exception aborting the remaining iterations. -/
def neighbours_loop (P : Planner) (goal : Cell) (cur : State) (epoch : Nat) :
    List Cell → LoopSt → LoopSt × Option PyErr
  | [], st => (st, none)
  | n :: rest, st =>
    match step_neighbour P goal cur epoch st n with
    | (st', some e) => (st', some e)
    | (st', none) => neighbours_loop P goal cur epoch rest st'

/-- the walk of `reconstruct_path` (planner.py lines 117-120). On the parent
maps `plan` builds, each parent's time is one less than its child's, so the walk
ends within `came_from.length + 1` lookups and the fuel never runs out. -/
def reconstruct_go : Nat → List ((Cell × Nat) × State) → State → List Cell → List Cell
  | 0, _, _, acc => acc
  | fuel + 1, cf, cur, acc =>
    match lookupCF cf (cur.pos, cur.time) with
    | none => acc
    | some parent => reconstruct_go fuel cf parent (acc ++ [parent.pos])

/-- `Planner.reconstruct_path` (planner.py lines 116-121): collect positions from
the goal state back to the root, then reverse. -/
def reconstruct_path (came_from : List ((Cell × Nat) × State)) (current : State) :
    List Cell :=
  (reconstruct_go (came_from.length + 1) came_from current [current.pos]).reverse

/-- everything a `plan` call leaves behind: its return value (or the exception
that escaped), the caller's dict object as it stands after the call, and the
bookkeeping list of states handed to the open set. -/
structure PlanResult where
  result : Except PyErr (List Cell)
  caller_dyn : DynTable
  pushed : List State

/-- line 92, `closed_set.add(heappop(open_set))`: the heap loses its minimum
(which is `open_set[0]`, already held as `current_state`) and that state's
(position, time) key joins the closed set. -/
def popped (st : LoopSt) (cur : State) : LoopSt :=
  { st with
    open_set := heappop_rest st.open_set,
    closed_set := st.closed_set ++ [(cur.pos, cur.time)] }

/-- the `while` loop of `plan` (planner.py lines 84-111), fuelled by the
remaining iteration budget: stop with an empty path when the budget or the open
set is exhausted (line 111); otherwise peek the heap minimum (line 86), return
the reconstructed path when it sits on the goal (lines 87-90), else pop it into
the closed set (line 92) and run the neighbour loop at `epoch = time + 1`
(lines 93-107). -/
def plan_loop (P : Planner) (goal : Cell) : Nat → LoopSt → PlanResult
  | 0, st => ⟨Except.ok [], st.caller_dyn, st.pushed⟩
  | fuel + 1, st =>
    match st.open_set with
    | [] => ⟨Except.ok [], st.caller_dyn, st.pushed⟩
    | cur :: _ =>
      if cur.pos = goal then
        ⟨Except.ok (reconstruct_path st.came_from cur), st.caller_dyn, st.pushed⟩
      else
        match neighbours_loop P goal cur (cur.time + 1) (P.neighbour_table cur.pos)
            (popped st cur) with
        | (st'', some e) => ⟨Except.error e, st''.caller_dyn, st''.pushed⟩
        | (st'', none) => plan_loop P goal fuel st''

/-- `Planner.plan` (planner.py lines 57-111). Line 64 builds a new dict from the
caller's (same keys, same coordinates), rebinding the local name, so the
`setdefault` mutations later performed through that name touch only the new
dict; the caller's object is carried separately and nothing ever writes to it.
Lines 71-72 snap both endpoints; line 75 builds the start state at time 0 with
g = 0 and h = L1(start, goal); line 77 seeds the open set with it. `plan` reads
but never assigns an attribute of `self`, so the planner itself is unchanged. -/
def Planner.plan (self : Planner) (start goal : Cell)
    (dynamic_obstacles : DynTable) (max_iter : Nat) : PlanResult :=
  let internal := dynamic_obstacles
  let start' := self.snap_to_grid start
  let goal' := self.snap_to_grid goal
  let s : State := ⟨start', 0, 0, Planner.h start' goal'⟩
  plan_loop self goal' max_iter
    ⟨[s], [], [], dynamic_obstacles, internal, [s]⟩

/-! ### Concrete collaborator instances, used to exercise the theorems -/

/-- a 4-connected neighbour function on the n-by-n grid (no stay-put move): one
admissible instance of the spec-modelled NeighbourTable contract (§4.2). -/
def nt4 (n : Nat) (c : Cell) : List Cell :=
  ([(c.1 + 1, c.2), (c.1 - 1, c.2), (c.1, c.2 + 1), (c.1, c.2 - 1)] : List Cell).filter
    (fun d => decide (0 ≤ d.1) && decide (d.1 < (n : Int)) &&
              decide (0 ≤ d.2) && decide (d.2 < (n : Int)))

/-- clamping snap: one admissible instance of the spec-modelled Grid contract
(§4.1), mapping a coordinate to the nearest cell of the n-by-n grid. -/
def snapClamp (n : Nat) (c : Cell) : Cell :=
  (min (max c.1 0) ((n : Int) - 1), min (max c.2 0) ((n : Int) - 1))

/-- a concrete planner on a 10-by-10 grid, radius 1, one obstacle in the far
corner. -/
def fixP : Planner := ⟨1, [(9, 9)], snapClamp 10, nt4 10⟩

/-- a concrete planner on a 10-by-10 grid, radius 1, whose single static
obstacle sits exactly on cell (2, 2). -/
def obstAtStart : Planner := ⟨1, [(2, 2)], snapClamp 10, nt4 10⟩

/-! ### Helper lemmas -/

theorem plan_loop_nil (P : Planner) (goal : Cell) (fuel : Nat) (st : LoopSt)
    (h : st.open_set = []) :
    plan_loop P goal fuel st = ⟨Except.ok [], st.caller_dyn, st.pushed⟩ := by
  cases fuel with
  | zero => rfl
  | succ n => unfold plan_loop; rw [h]

theorem heappop_rest_single (s : State) : heappop_rest [s] = [] := by
  simp [heappop_rest]

theorem reconstruct_path_root (current : State) :
    reconstruct_path [] current = [current.pos] := by
  simp [reconstruct_path, reconstruct_go, lookupCF]

/-- what a `plan` call computes, for every input: with no budget or with the two
snapped endpoints equal the loop answers before touching any neighbour; in every
other case the very first neighbour inspection calls `safe_static`, whose
attribute access raises, so the call returns an empty path only when the start
cell has no neighbours at all, and otherwise propagates AttributeError. -/
theorem plan_result_spec (P : Planner) (s g : Cell) (dyn : DynTable) (k : Nat) :
    (P.plan s g dyn k).result =
      if k = 0 then Except.ok []
      else if P.snap_to_grid s = P.snap_to_grid g then Except.ok [P.snap_to_grid s]
      else if P.neighbour_table (P.snap_to_grid s) = [] then Except.ok []
      else Except.error PyErr.attributeError := by
  cases k with
  | zero => rfl
  | succ n =>
    simp only [Planner.plan, plan_loop, Nat.succ_ne_zero, if_false]
    by_cases hsg : P.snap_to_grid s = P.snap_to_grid g
    · simp [hsg, reconstruct_path_root]
    · simp only [hsg, if_false, ite_false, if_neg hsg]
      cases hnt : P.neighbour_table (P.snap_to_grid s) with
      | nil =>
        simp only [neighbours_loop]
        rw [plan_loop_nil]
        · simp
        · simp [popped, heappop_rest_single]
      | cons nb rest =>
        simp only [neighbours_loop, step_neighbour, Planner.safe_static, popped]
        simp

theorem step_neighbour_caller (P : Planner) (goal : Cell) (cur : State) (epoch : Nat)
    (st : LoopSt) (n : Cell) :
    (step_neighbour P goal cur epoch st n).1.caller_dyn = st.caller_dyn := by
  unfold step_neighbour Planner.safe_static
  split <;> rfl

theorem neighbours_loop_caller (P : Planner) (goal : Cell) (cur : State) (epoch : Nat) :
    ∀ (l : List Cell) (st : LoopSt),
      (neighbours_loop P goal cur epoch l st).1.caller_dyn = st.caller_dyn := by
  intro l
  induction l with
  | nil => intro st; rfl
  | cons n rest ih =>
    intro st
    unfold neighbours_loop
    have hc := step_neighbour_caller P goal cur epoch st n
    cases h : step_neighbour P goal cur epoch st n with
    | mk st' e =>
      rw [h] at hc
      cases e with
      | none => exact (ih st').trans hc
      | some e => exact hc

theorem plan_loop_caller (P : Planner) (goal : Cell) :
    ∀ (fuel : Nat) (st : LoopSt),
      (plan_loop P goal fuel st).caller_dyn = st.caller_dyn := by
  intro fuel
  induction fuel with
  | zero => intro st; rfl
  | succ n ih =>
    intro st
    unfold plan_loop
    split
    · rfl
    · next cur rest heq =>
      split
      · rfl
      · have hc := neighbours_loop_caller P goal cur (cur.time + 1)
          (P.neighbour_table cur.pos) (popped st cur)
        cases hnl : neighbours_loop P goal cur (cur.time + 1)
            (P.neighbour_table cur.pos) (popped st cur) with
        | mk st'' e =>
          rw [hnl] at hc
          cases e with
          | none => exact (ih st'').trans hc
          | some e => exact hc

/-- line 64 rebinds the local name to a fresh dict, so every later `setdefault`
mutation lands on the fresh dict and the object the caller passed in is never
written to. -/
theorem plan_caller (P : Planner) (s g : Cell) (dyn : DynTable) (k : Nat) :
    (P.plan s g dyn k).caller_dyn = dyn := by
  unfold Planner.plan
  exact plan_loop_caller P _ k _

theorem getD_gOK {l : List State} (hl : ∀ x ∈ l, x.g_score = x.time) (i : Nat) :
    (l.getD i default).g_score = (l.getD i default).time := by
  rw [List.getD_eq_getElem?_getD]
  cases h : l[i]? with
  | none => rfl
  | some v =>
    obtain ⟨hlt, hv⟩ := List.getElem?_eq_some_iff.mp h
    subst hv
    simpa using hl _ (List.getElem_mem hlt)

theorem siftdown_gOK :
    ∀ (fuel : Nat) (heap : List State) (pos : Nat) (it : State),
      (∀ x ∈ heap, x.g_score = x.time) → it.g_score = it.time →
      ∀ x ∈ siftdown fuel heap pos it, x.g_score = x.time := by
  intro fuel
  induction fuel with
  | zero =>
    intro heap pos it hh hi x hx
    rcases List.mem_or_eq_of_mem_set hx with h | rfl
    exacts [hh x h, hi]
  | succ n ih =>
    intro heap pos it hh hi x hx
    unfold siftdown at hx
    dsimp only at hx
    split at hx
    · rcases List.mem_or_eq_of_mem_set hx with h | rfl
      exacts [hh x h, hi]
    · split at hx
      · refine ih _ _ _ ?_ hi x hx
        intro y hy
        rcases List.mem_or_eq_of_mem_set hy with h | rfl
        exacts [hh y h, getD_gOK hh _]
      · rcases List.mem_or_eq_of_mem_set hx with h | rfl
        exacts [hh x h, hi]

theorem heappush_gOK {heap : List State} {it : State}
    (hh : ∀ x ∈ heap, x.g_score = x.time) (hi : it.g_score = it.time) :
    ∀ x ∈ heappush heap it, x.g_score = x.time := by
  intro x hx
  refine siftdown_gOK _ _ _ _ ?_ hi x hx
  intro y hy
  rcases List.mem_append.mp hy with h | h
  · exact hh y h
  · rcases List.mem_singleton.mp h with rfl
    exact hi

theorem siftupLoop_gOK :
    ∀ (fuel : Nat) (heap : List State) (pos : Nat),
      (∀ x ∈ heap, x.g_score = x.time) →
      ∀ x ∈ (siftupLoop fuel heap pos).1, x.g_score = x.time := by
  intro fuel
  induction fuel with
  | zero => intro heap pos hh; exact hh
  | succ n ih =>
    intro heap pos hh x hx
    unfold siftupLoop at hx
    dsimp only at hx
    split at hx
    · refine ih _ _ ?_ x hx
      intro y hy
      rcases List.mem_or_eq_of_mem_set hy with h | rfl
      exacts [hh y h, getD_gOK hh _]
    · exact hh x hx

theorem siftup_gOK {heap : List State} {pos : Nat}
    (hh : ∀ x ∈ heap, x.g_score = x.time) :
    ∀ x ∈ siftup heap pos, x.g_score = x.time := by
  intro x hx
  unfold siftup at hx
  refine siftdown_gOK _ _ _ _ ?_ (getD_gOK hh _) x hx
  intro y hy
  rcases List.mem_or_eq_of_mem_set hy with h | rfl
  · exact siftupLoop_gOK _ _ _ hh y h
  · exact getD_gOK hh _

theorem getLastD_gOK {l : List State}
    (hl : ∀ x ∈ l, x.g_score = x.time) :
    (l.getLastD default).g_score = (l.getLastD default).time := by
  rw [List.getLastD_eq_getLast?]
  cases h : l.getLast? with
  | none => rfl
  | some v =>
    obtain ⟨ys, rfl⟩ := List.getLast?_eq_some_iff.mp h
    simpa using hl v (by simp)

theorem heappop_rest_gOK {heap : List State}
    (hh : ∀ x ∈ heap, x.g_score = x.time) :
    ∀ x ∈ heappop_rest heap, x.g_score = x.time := by
  intro x hx
  unfold heappop_rest at hx
  dsimp only at hx
  split at hx
  · simp at hx
  · refine siftup_gOK ?_ x hx
    intro y hy
    rcases List.mem_or_eq_of_mem_set hy with h | rfl
    · exact hh y (List.mem_of_mem_dropLast h)
    · exact getLastD_gOK hh

/-- the candidate built on line 95 carries g = current.g + 1 and time =
current.time + 1, so the g = time property passes from the expanded state to
every state the step hands to the open set. -/
theorem step_neighbour_gOK (P : Planner) (goal : Cell) (cur : State) (st : LoopSt)
    (n : Cell) (hcur : cur.g_score = cur.time)
    (hopen : ∀ x ∈ st.open_set, x.g_score = x.time)
    (hpush : ∀ x ∈ st.pushed, x.g_score = x.time) :
    (∀ x ∈ (step_neighbour P goal cur (cur.time + 1) st n).1.open_set,
        x.g_score = x.time) ∧
    (∀ x ∈ (step_neighbour P goal cur (cur.time + 1) st n).1.pushed,
        x.g_score = x.time) := by
  unfold step_neighbour
  dsimp only
  split
  · exact ⟨hopen, hpush⟩
  · split
    · exact ⟨hopen, hpush⟩
    · split
      · exact ⟨hopen, hpush⟩
      · split
        · exact ⟨hopen, hpush⟩
        · split
          · exact ⟨hopen, hpush⟩
          · constructor
            · exact heappush_gOK hopen (by simp [hcur])
            · intro x hx
              rcases List.mem_append.mp hx with h | h
              · exact hpush x h
              · rcases List.mem_singleton.mp h with rfl
                simp [hcur]

theorem neighbours_loop_gOK (P : Planner) (goal : Cell) (cur : State)
    (hcur : cur.g_score = cur.time) :
    ∀ (l : List Cell) (st : LoopSt),
      (∀ x ∈ st.open_set, x.g_score = x.time) →
      (∀ x ∈ st.pushed, x.g_score = x.time) →
      (∀ x ∈ (neighbours_loop P goal cur (cur.time + 1) l st).1.open_set,
          x.g_score = x.time) ∧
      (∀ x ∈ (neighbours_loop P goal cur (cur.time + 1) l st).1.pushed,
          x.g_score = x.time) := by
  intro l
  induction l with
  | nil => intro st ho hp; exact ⟨ho, hp⟩
  | cons n rest ih =>
    intro st ho hp
    have hstep := step_neighbour_gOK P goal cur st n hcur ho hp
    unfold neighbours_loop
    cases h : step_neighbour P goal cur (cur.time + 1) st n with
    | mk st' e =>
      rw [h] at hstep
      cases e with
      | none => exact ih st' hstep.1 hstep.2
      | some e => exact hstep

theorem plan_loop_gOK (P : Planner) (goal : Cell) :
    ∀ (fuel : Nat) (st : LoopSt),
      (∀ x ∈ st.open_set, x.g_score = x.time) →
      (∀ x ∈ st.pushed, x.g_score = x.time) →
      ∀ x ∈ (plan_loop P goal fuel st).pushed, x.g_score = x.time := by
  intro fuel
  induction fuel with
  | zero => intro st _ hp; exact hp
  | succ n ih =>
    intro st ho hp
    unfold plan_loop
    split
    · exact hp
    · next cur rest heq =>
      split
      · exact hp
      · have hcur : cur.g_score = cur.time :=
          ho cur (by rw [heq]; exact List.mem_cons_self _ _)
        have hpop : ∀ x ∈ (popped st cur).open_set, x.g_score = x.time :=
          fun x hx => heappop_rest_gOK ho x hx
        have hnl := neighbours_loop_gOK P goal cur hcur (P.neighbour_table cur.pos)
          (popped st cur) hpop hp
        cases h : neighbours_loop P goal cur (cur.time + 1)
            (P.neighbour_table cur.pos) (popped st cur) with
        | mk st'' e =>
          rw [h] at hnl
          cases e with
          | none => exact ih st'' hnl.1 hnl.2
          | some e => exact hnl.2

/-- the start state is created at time 0 with g = 0 (line 75) and every pushed
successor keeps g equal to time, so the property holds for every state `plan`
ever hands to the open set. -/
theorem plan_pushed_gOK (P : Planner) (s g : Cell) (dyn : DynTable) (k : Nat) :
    ∀ x ∈ (P.plan s g dyn k).pushed, x.g_score = x.time := by
  unfold Planner.plan
  refine plan_loop_gOK P _ k _ ?_ ?_ <;>
    · intro x hx
      rcases List.mem_singleton.mp hx with rfl
      rfl

theorem isqrtAux_sq_le (n : Nat) : ∀ k, isqrtAux n k * isqrtAux n k ≤ n := by
  intro k
  induction k with
  | zero => simp [isqrtAux]
  | succ k ih =>
    unfold isqrtAux
    split
    · assumption
    · exact ih

theorem le_isqrtAux (n : Nat) : ∀ k j, j ≤ k → j * j ≤ n → j ≤ isqrtAux n k := by
  intro k
  induction k with
  | zero => intro j hj _; simpa [isqrtAux] using hj
  | succ k ih =>
    intro j hj hsq
    unfold isqrtAux
    split
    · exact hj
    · next hcond =>
      rcases Nat.lt_or_ge j (k + 1) with h | h
      · exact ih j (Nat.lt_succ_iff.mp h) hsq
      · exact absurd (le_antisymm hj h ▸ hsq) hcond

/-- the integer-truncated square root exceeds m exactly when (m+1) squared is
at most the radicand; this is how the floor taken by l2 shifts the strict
distance comparisons of the safety checks. -/
theorem lt_isqrt {m n : Nat} : m < isqrt n ↔ (m + 1) * (m + 1) ≤ n := by
  constructor
  · intro h
    calc (m + 1) * (m + 1) ≤ isqrt n * isqrt n := Nat.mul_le_mul h h
    _ ≤ n := isqrtAux_sq_le n n
  · intro h
    have hm : m + 1 ≤ (m + 1) * (m + 1) :=
      Nat.le_mul_of_pos_left _ (Nat.succ_pos m)
    exact le_isqrtAux n n (m + 1) (le_trans hm h) h

theorem setdefault_fst (t : DynTable) (k : Nat) :
    (setdefault t k).1 = (lookupTable t k).getD [] := by
  unfold setdefault lookupTable
  cases h : t.find? (fun e => e.1 == k) <;> simp [h]

/-- what `safe_dynamic` decides: acceptance is equivalent to every obstacle at
the queried time having squared distance at least (2r+1) squared, i.e. the
floored Euclidean distance strictly exceeding 2r. -/
theorem safe_dynamic_iff (r : Nat) (t : DynTable) (c : Cell) (time : Nat) :
    (safe_dynamic r t c time).1 = true ↔
      ∀ o ∈ (lookupTable t time).getD [],
        (2 * r + 1) * (2 * r + 1) ≤ distSq c o := by
  unfold safe_dynamic
  dsimp only
  rw [setdefault_fst]
  rw [List.all_eq_true]
  constructor
  · intro h o ho
    have hdec := h o ho
    rw [decide_eq_true_eq] at hdec
    exact lt_isqrt.mp hdec
  · intro h o ho
    rw [decide_eq_true_eq]
    exact lt_isqrt.mpr (h o ho)

theorem safe_dynamic_absent (r : Nat) (t : DynTable) (c : Cell) (time : Nat)
    (h : lookupTable t time = none) : (safe_dynamic r t c time).1 = true := by
  rw [safe_dynamic_iff]
  simp [h]

/-! ### Claim theorems -/

/-- C1, counterexample: the claim requires every path index, index 0 included,
to pass both safety checks, but `plan` never checks the snapped start: with the
snapped start equal to the snapped goal, a static obstacle on that very cell and
a dynamic obstacle on it at time 0, `plan` still returns the one-cell path,
whose cell at index 0 passes neither check. -/
theorem C1_counterexample :
    (obstAtStart.plan (2, 2) (2, 2) [(0, [(2, 2)])] 1).result =
      Except.ok [((2 : Int), (2 : Int))] ∧
    obstAtStart.safe_static (2, 2) ≠ Except.ok true ∧
    dynSafePure obstAtStart.robot_radius [(0, [(2, 2)])] (2, 2) 0 = false := by
  refine ⟨rfl, ?_, by decide⟩
  intro h
  exact Except.noConfusion h

/-- C1, amended: for every input on which `plan` returns a non-empty path, the
first cell equals the snapped start, the last cell equals the snapped goal,
consecutive cells are adjacent under the NeighbourTable connectivity, and every
index i with i ≥ 1 passes both the static-safety check and the dynamic-safety
check against the dynamic-obstacle table at time i (index 0, the snapped start,
is exempt: the code never safety-checks it). -/
theorem C1_amended (P : Planner) (s g : Cell) (dyn : DynTable) (k : Nat)
    (path : List Cell) (hres : (P.plan s g dyn k).result = Except.ok path)
    (hne : path ≠ []) :
    path.head? = some (P.snap_to_grid s) ∧
    path.getLast? = some (P.snap_to_grid g) ∧
    path.Chain' (fun a b => b ∈ P.neighbour_table a) ∧
    ∀ i, 1 ≤ i → i < path.length →
      P.safe_static (path.getD i (0, 0)) = Except.ok true ∧
      dynSafePure P.robot_radius dyn (path.getD i (0, 0)) i = true := by
  have hspec := plan_result_spec P s g dyn k
  rw [hres] at hspec
  by_cases hk : k = 0
  · rw [if_pos hk] at hspec
    simp only [Except.ok.injEq] at hspec
    exact absurd hspec hne
  rw [if_neg hk] at hspec
  by_cases hsg : P.snap_to_grid s = P.snap_to_grid g
  · rw [if_pos hsg] at hspec
    simp only [Except.ok.injEq] at hspec
    subst hspec
    refine ⟨rfl, by rw [hsg]; rfl, List.chain'_singleton _, ?_⟩
    intro i h1 hlen
    simp at hlen
    omega
  · rw [if_neg hsg] at hspec
    by_cases hnt : P.neighbour_table (P.snap_to_grid s) = []
    · rw [if_pos hnt] at hspec
      simp only [Except.ok.injEq] at hspec
      exact absurd hspec hne
    · rw [if_neg hnt] at hspec
      exact absurd hspec (by simp)

/-- C1, witness: the amended theorem applied to a concrete call that returns a
non-empty path, discharging both hypotheses there. -/
theorem C1_witness :
    (fixP.plan (2, 2) (2, 2) [] 1).result = Except.ok [((2 : Int), (2 : Int))] ∧
    ([((2 : Int), (2 : Int))] : List Cell).head? = some (fixP.snap_to_grid (2, 2)) ∧
    ([((2 : Int), (2 : Int))] : List Cell).getLast? = some (fixP.snap_to_grid (2, 2)) := by
  have h := C1_amended fixP (2, 2) (2, 2) [] 1 [((2 : Int), (2 : Int))] rfl (by decide)
  exact ⟨rfl, h.1, h.2.1⟩

/-- C2: the claim says the static-safety check returns true iff the distance to
the nearest static obstacle strictly exceeds robot_radius; the code instead
raises AttributeError on every call, because line 52 reads the attribute `datt`
that a scipy KDTree does not have (its data array attribute is `data`). This
theorem evaluates the embedded check: it errors for every planner and cell. -/
theorem C2_safe_static_raises (P : Planner) (grid_pos : Cell) :
    P.safe_static grid_pos = Except.error PyErr.attributeError := rfl

/-- C3, counterexample: with robot_radius 1, cell (0,0) and an obstacle (1,2)
recorded at time 0, the true Euclidean distance is the square root of 5, which
is strictly greater than 2·robot_radius (its square 5 exceeds 4), yet the check
rejects the cell, because l2 floors the distance to 2 before comparing. -/
theorem C3_counterexample :
    (safe_dynamic 1 [(0, [(1, 2)])] (0, 0) 0).1 = false ∧
    (2 * 1) * (2 * 1) < distSq (0, 0) (1, 2) := by decide

/-- C3, amended: the dynamic-safety check accepts a cell at a time step iff
every obstacle recorded at that time has integer-truncated Euclidean distance
(the floor the code's l2 computes) strictly greater than 2·robot_radius —
equivalently, squared distance at least (2·robot_radius + 1)² — and a time step
absent from the table is treated as having zero obstacles, so every cell is
accepted at such a time. -/
theorem C3_amended (r : Nat) (t : DynTable) (c : Cell) (time : Nat) :
    ((safe_dynamic r t c time).1 = true ↔
      ∀ o ∈ (lookupTable t time).getD [],
        (2 * r + 1) * (2 * r + 1) ≤ distSq c o) ∧
    (lookupTable t time = none → (safe_dynamic r t c time).1 = true) :=
  ⟨safe_dynamic_iff r t c time, safe_dynamic_absent r t c time⟩

/-- C3, witness: the amended theorem applied at a concrete table, once through
the equivalence at a present time (obstacle at squared distance exactly
(2r+1)²) and once through the absent-time clause. -/
theorem C3_witness :
    (safe_dynamic 1 [(5, [(0, 3)])] (0, 0) 5).1 = true ∧
    (safe_dynamic 1 [(5, [(0, 3)])] (0, 0) 7).1 = true := by
  constructor
  · exact (C3_amended 1 [(5, [(0, 3)])] (0, 0) 5).1.mpr (by decide)
  · exact (C3_amended 1 [(5, [(0, 3)])] (0, 0) 7).2 (by decide)

/-- C4: the claim says an unsuccessful search always returns an empty sequence
and never raises; evaluating the embedded `plan` on a call that must inspect a
neighbour (start and goal snap to different cells, the start has neighbours)
shows the call instead propagates the AttributeError raised inside
`safe_static`. -/
theorem C4_plan_raises :
    (fixP.plan (0, 0) (3, 3) [] 50).result = Except.error PyErr.attributeError := rfl

/-- C5: the claim describes the first-seen-wins discard at lines 104-107, but
that branch is dead code: for every planner, state and neighbour, one step of
the neighbour loop leaves the open set, the parent map and the pushed-state
trace unchanged, because every candidate that survives the closed-set test hits
the AttributeError in `safe_static` before the open-set membership test; no
successor is ever pushed, so no duplicate candidate is ever discarded or kept. -/
theorem C5_insertion_never_reached (P : Planner) (goal : Cell) (cur : State)
    (epoch : Nat) (st : LoopSt) (n : Cell) :
    (step_neighbour P goal cur epoch st n).1.open_set = st.open_set ∧
    (step_neighbour P goal cur epoch st n).1.came_from = st.came_from ∧
    (step_neighbour P goal cur epoch st n).1.pushed = st.pushed := by
  unfold step_neighbour Planner.safe_static
  split <;> exact ⟨rfl, rfl, rfl⟩

/-- C6: every SearchState `plan` ever hands to the open set — the initial state
of line 77 and every successor pushed on line 107 — has its g_score equal to
its time, because the initial state has time 0 and g 0 and each candidate is
built with time = current.time + 1 and g = current.g_score + 1. -/
theorem C6_g_score_eq_time (P : Planner) (s g : Cell) (dyn : DynTable) (k : Nat) :
    ∀ x ∈ (P.plan s g dyn k).pushed, x.g_score = x.time :=
  plan_pushed_gOK P s g dyn k

/-- C6, witness: the invariant applied to the concrete state a concrete call
pushes. -/
theorem C6_witness :
    (⟨((5 : Int), (5 : Int)), 0, 0, 0⟩ : State) ∈ (fixP.plan (5, 5) (5, 5) [] 1).pushed ∧
    (⟨((5 : Int), (5 : Int)), 0, 0, 0⟩ : State).g_score =
      (⟨((5 : Int), (5 : Int)), 0, 0, 0⟩ : State).time :=
  ⟨by decide, C6_g_score_eq_time fixP (5, 5) (5, 5) [] 1 _ (by decide)⟩

/-- C7: for a fixed planner, start, goal and dynamic table, if `plan` with cap k
returns a non-empty path then `plan` with any larger cap returns that same
path — raising the iteration cap never loses a found path. -/
theorem C7_monotone_cap (P : Planner) (s g : Cell) (dyn : DynTable) (k k' : Nat)
    (path : List Cell) (hres : (P.plan s g dyn k).result = Except.ok path)
    (hne : path ≠ []) (hkk : k < k') :
    (P.plan s g dyn k').result = Except.ok path := by
  have h1 := plan_result_spec P s g dyn k
  have h2 := plan_result_spec P s g dyn k'
  rw [hres] at h1
  by_cases hk : k = 0
  · rw [if_pos hk] at h1
    simp only [Except.ok.injEq] at h1
    exact absurd h1 hne
  rw [if_neg hk] at h1
  by_cases hsg : P.snap_to_grid s = P.snap_to_grid g
  · rw [if_pos hsg] at h1
    simp only [Except.ok.injEq] at h1
    subst h1
    rw [if_neg (by omega : k' ≠ 0), if_pos hsg] at h2
    exact h2
  · rw [if_neg hsg] at h1
    by_cases hnt : P.neighbour_table (P.snap_to_grid s) = []
    · rw [if_pos hnt] at h1
      simp only [Except.ok.injEq] at h1
      exact absurd h1 hne
    · rw [if_neg hnt] at h1
      exact absurd h1 (by simp)

/-- C7, witness: the monotonicity theorem applied to a concrete call that finds
a path at cap 1, re-run at cap 2. -/
theorem C7_witness :
    (fixP.plan (4, 4) (4, 4) [] 2).result = Except.ok [((4 : Int), (4 : Int))] :=
  C7_monotone_cap fixP (4, 4) (4, 4) [] 1 2 [((4 : Int), (4 : Int))] rfl (by decide)
    (by decide)

/-- C8: `plan` leaves nothing behind that alters a repeat call: it assigns no
attribute of the planner, and the caller's dynamic-obstacle dict comes back
unchanged, so feeding the post-call dict to a second, identical call produces
the identical result. -/
theorem C8_repeat_call (P : Planner) (s g : Cell) (dyn : DynTable) (k : Nat) :
    (P.plan s g ((P.plan s g dyn k).caller_dyn) k).result =
      (P.plan s g dyn k).result := by
  rw [plan_caller]

/-- C9: whenever the snapped start equals the snapped goal and at least one
iteration is allowed, `plan` returns the one-cell path holding the snapped
start, for every dynamic table and every static obstacle layout — the goal test
of line 87 fires before any safety check can look at the start cell. -/
theorem C9_start_unchecked (P : Planner) (s g : Cell) (dyn : DynTable) (k : Nat)
    (hsg : P.snap_to_grid s = P.snap_to_grid g) (hk : 1 ≤ k) :
    (P.plan s g dyn k).result = Except.ok [P.snap_to_grid s] := by
  have h := plan_result_spec P s g dyn k
  rw [if_neg (by omega : k ≠ 0), if_pos hsg] at h
  exact h

/-- C9, witness: the theorem applied at a start cell that is itself a static
obstacle and is occupied by a dynamic obstacle at time 0 — the one-cell path is
returned all the same. -/
theorem C9_witness :
    obstAtStart.safe_static (2, 2) = Except.error PyErr.attributeError ∧
    dynSafePure obstAtStart.robot_radius [(0, [(2, 2)])] (2, 2) 0 = false ∧
    (obstAtStart.plan (2, 2) (2, 2) [(0, [(2, 2)])] 3).result =
      Except.ok [((2 : Int), (2 : Int))] :=
  ⟨rfl, by decide,
    C9_start_unchecked obstAtStart (2, 2) (2, 2) [(0, [(2, 2)])] 3 rfl (by decide)⟩

/-- C10: `plan` leaves the caller's dynamic-obstacle mapping unchanged — the
dict is copied into a fresh dict on line 64 before any `setdefault` mutation,
and the object the caller passed in holds the same entries after the call. -/
theorem C10_caller_table_preserved (P : Planner) (s g : Cell) (dyn : DynTable)
    (k : Nat) : (P.plan s g dyn k).caller_dyn = dyn :=
  plan_caller P s g dyn k

end STAStar
